import Mathlib

/- Verification development for the vulk 2D scene graph and action engine
(vulk/graphic/d2/scene.py).  The Python classes are shallowly embedded:
pure functions become Lean functions, the in-place mutation of widget and
action objects becomes explicit state passing, Python floats are modelled
by exact rationals, and the fallible parts (attribute lookup, renderer
resolution) return Except values. -/

namespace Vulk

/- ----------------------------------------------------------------
Widget tree structure.

A widget owns an ordered list of children (Widget.__init__: self.children
= []).  For the structural claims only the shape of the tree and a label
per node matter; the label stands both for the widget's identity and for
its get_renderer_name() result.
---------------------------------------------------------------- -/

/-- A widget tree node: a label (widget identity / renderer name) together
with the ordered list of child widgets. -/
inductive Tree where
  | node (label : Nat) (children : List Tree)

/-- Label of the root widget of a tree. -/
def Tree.label : Tree → Nat
  | .node i _ => i

/-- Direct children of a widget. -/
def Tree.children : Tree → List Tree
  | .node _ cs => cs

mutual

/-- Widget.collect_children (scene.py:87-93): result_children =
self.children.copy(); then for each child, result_children +=
child.collect_children().  So: the direct children first, then each
child's own collected list, concatenated in child order. -/
def Tree.collect : Tree → List Tree
  | .node _ cs => cs ++ Tree.collectList cs

/-- The accumulation loop of Widget.collect_children over a list of
children: concatenates child.collect_children() for each child in order. -/
def Tree.collectList : List Tree → List Tree
  | [] => []
  | t :: ts => Tree.collect t ++ Tree.collectList ts

end

mutual

/-- The descendants of a widget (excluding itself) in pre-order: each
child immediately followed by its own descendants, before the next
sibling.  This is the order the spec asserts for collect_children. -/
def Tree.preorderDesc : Tree → List Tree
  | .node _ cs => Tree.preorderDescList cs

/-- Pre-order traversal of a forest: each root followed by its own
descendants, then the next root. -/
def Tree.preorderDescList : List Tree → List Tree
  | [] => []
  | t :: ts => t :: (Tree.preorderDesc t ++ Tree.preorderDescList ts)

end

mutual

/-- Total number of descendants of a widget (excluding itself). -/
def Tree.countDesc : Tree → Nat
  | .node _ cs => Tree.countDescList cs

/-- Total number of nodes in a forest. -/
def Tree.countDescList : List Tree → Nat
  | [] => 0
  | t :: ts => 1 + Tree.countDesc t + Tree.countDescList ts

end

/-- Labels of the collected children, in collection order. -/
def Tree.collectLabels (t : Tree) : List Nat :=
  (Tree.collect t).map Tree.label

/-- Labels of the descendants in pre-order. -/
def Tree.preorderLabels (t : Tree) : List Nat :=
  (Tree.preorderDesc t).map Tree.label

/-- A widget with two children 1 and 2, where child 1 itself has a child
labelled 3: the smallest tree on which collection order and pre-order
differ. -/
def c4DemoTree : Tree := .node 0 [.node 1 [.node 3 []], .node 2 []]

/- ----------------------------------------------------------------
Scene.update and the per-frame action advance (C1).

Widget.update (scene.py:126-138) advances every action attached to the
widget by delta and then recurses into the children.  Scene.update
(scene.py:284-287) collects all descendants with collect_children and
calls update(delta) on each element of that flat list.

For the claim, only how much total time each widget's actions receive per
frame matters, so the mutable per-widget action state is modelled as a
store mapping the widget's label to the accumulated time its actions have
been advanced by; each invocation of Widget.update on a widget adds delta
to that widget's cell before recursing.
---------------------------------------------------------------- -/

/-- Advance the actions of the widget labelled i by delta in the store. -/
def bumpStore (store : Nat → Rat) (i : Nat) (delta : Rat) : Nat → Rat :=
  fun j => if j = i then store j + delta else store j

mutual

/-- Widget.update (scene.py:126-138): advance this widget's own actions by
delta, then for each child call child.update(delta). -/
def Tree.wUpdate : Tree → Rat → (Nat → Rat) → (Nat → Rat)
  | .node i cs, delta, store => Tree.wUpdateList cs delta (bumpStore store i delta)

/-- The recursion of Widget.update over the list of children, in order. -/
def Tree.wUpdateList : List Tree → Rat → (Nat → Rat) → (Nat → Rat)
  | [], _, store => store
  | t :: ts, delta, store => Tree.wUpdateList ts delta (Tree.wUpdate t delta store)

end

/-- Scene.update (scene.py:284-287): widgets = self.collect_children();
for widget in widgets: widget.update(delta). -/
def Tree.sceneUpdate (t : Tree) (delta : Rat) (store : Nat → Rat) : Nat → Rat :=
  (Tree.collect t).foldl (fun s w => Tree.wUpdate w delta s) store

/-- A scene with a direct child labelled 1 which itself has a child
labelled 2 (a grandchild of the scene). -/
def c1DemoScene : Tree := .node 0 [.node 1 [.node 2 []]]

/- ----------------------------------------------------------------
Widget.remove_action (C2).

Widget.remove_action (scene.py:121-124):
    if action in self.actions:
        action.unset_widget()
        self.actions.remove(action)
Python resolves action.unset_widget by attribute lookup on the action
object and its classes.  No class in scene.py (Action, TemporalAction,
MoveTo, MoveBy, FadeIn, FadeOut, FadeTo, Composite, Sequence, Parallel,
Repeat) defines unset_widget, and no other module of the repository
defines or assigns it, so the lookup fails and raises AttributeError.
The embedding records this with hasUnsetWidget, the result of that
attribute lookup on an Action, and an Except-valued remove_action.
---------------------------------------------------------------- -/

/-- Errors a Python call in this module can raise. -/
inductive PyError where
  | attributeError
deriving DecidableEq

/-- Whether an Action object has an unset_widget attribute: false, since
no class of the Action hierarchy in scene.py (lines 373-635) nor any
other code of the repository defines one. -/
def Action.hasUnsetWidget : Bool := false

/-- Widget.remove_action (scene.py:121-124), with actions identified by
natural-number identity.  The membership test mirrors `action in
self.actions`; the unset_widget call raises AttributeError when the
attribute is missing; list.remove removes the first occurrence. -/
def removeAction (actions : List Nat) (a : Nat) : Except PyError (List Nat) :=
  if a ∈ actions then
    if Action.hasUnsetWidget then Except.ok (actions.erase a)
    else Except.error PyError.attributeError
  else Except.ok actions

/- ----------------------------------------------------------------
TemporalAction (C5) — scene.py:382-406.

State: duration and accumulated time (interpolation does not affect the
return value of the base update, so it is not part of this state).
update(delta): time += delta; return False if percent() >= 1 else True,
with percent() = time / duration.
---------------------------------------------------------------- -/

/-- The mutable state of a TemporalAction: its duration and the time
accumulated so far (time = 0 right after init). -/
structure TemporalState where
  duration : Rat
  time : Rat
deriving DecidableEq

/-- TemporalAction.percent (scene.py:405-406): time / duration. -/
def TemporalState.percent (s : TemporalState) : Rat :=
  s.time / s.duration

/-- TemporalAction.update (scene.py:397-403): self.time += delta; if
self.percent() >= 1: return False; return True. -/
def TemporalState.update (s : TemporalState) (delta : Rat) : TemporalState × Bool :=
  let s1 : TemporalState := { s with time := s.time + delta }
  if s1.percent ≥ 1 then (s1, false) else (s1, true)

/-- State of a freshly initialized TemporalAction of duration D after the
k-th of a run of update calls with a fixed delta. -/
def taState (D delta : Rat) : Nat → TemporalState
  | 0 => ⟨D, 0⟩
  | k + 1 => (TemporalState.update (taState D delta k) delta).1

/-- Return value of call number k+1 in that run. -/
def taResult (D delta : Rat) (k : Nat) : Bool :=
  (TemporalState.update (taState D delta k) delta).2

/- ----------------------------------------------------------------
MoveBy with Linear interpolation (C3) — scene.py:446-481.
---------------------------------------------------------------- -/

/-- Modelled from the spec: the class Linear of vulk/math/interpolation.py
is not under src/; per the spec (section 4.1) its apply(t) returns t
unchanged. -/
def Linear.apply (t : Rat) : Rat := t

/-- The mutable state of a MoveBy action: the TemporalAction fields plus
the target displacement (x_width, y_width) and the cumulative
displacement already emitted (x_prev, y_prev). -/
structure MoveByState where
  duration : Rat
  time : Rat
  xWidth : Rat
  yWidth : Rat
  xPrev : Rat
  yPrev : Rat
deriving DecidableEq

/-- The widget shape fields MoveBy mutates (Rectangle x and y; the
Rectangle class itself lives outside src/ and is, per the spec, a plain
record of coordinates). -/
structure ShapeXY where
  x : Rat
  y : Rat
deriving DecidableEq

/-- MoveBy.update (scene.py:470-481) with Linear interpolation: first
super().update(delta) adds delta to time; percent = self.percent(); if
percent >= 1 return False (no movement applied); otherwise _compute_move
(scene.py:460-468) emits the difference between the eased cumulative
displacement and the previously emitted one, updates x_prev/y_prev, and
the widget's shape is shifted by that difference. -/
def MoveByState.update (s : MoveByState) (sh : ShapeXY) (delta : Rat) :
    MoveByState × ShapeXY × Bool :=
  let s1 : MoveByState := { s with time := s.time + delta }
  let percent := s1.time / s1.duration
  if percent ≥ 1 then (s1, sh, false)
  else
    let p := Linear.apply percent
    let xDiff := s1.xWidth * p
    let yDiff := s1.yWidth * p
    let xRes := xDiff - s1.xPrev
    let yRes := yDiff - s1.yPrev
    ({ s1 with xPrev := xDiff, yPrev := yDiff },
     { x := sh.x + xRes, y := sh.y + yRes }, true)

/-- Run MoveBy.update over a list of deltas, threading action state and
widget shape. -/
def moveByRun (s : MoveByState) (sh : ShapeXY) : List Rat → MoveByState × ShapeXY
  | [] => (s, sh)
  | d :: ds =>
    let r := MoveByState.update s sh d
    moveByRun r.1 r.2.1 ds

/-- MoveBy(x=10, y=0, duration=1.0) right after init on a widget:
time = 0 and x_prev = y_prev = 0 (scene.py:446-458). -/
def moveBy10 : MoveByState := ⟨1, 0, 10, 0, 0, 0⟩

/- ----------------------------------------------------------------
Sequence (C6) — scene.py:552-590.

Composite.init copies the source action list into self.actions;
self.current_action starts as None.  next_action pops the head of
self.actions, makes it current and re-inits it (TemporalAction.init
resets time to 0); on an empty list the pop raises IndexError, which is
caught and reported as False with current_action left unchanged.
The children here are plain TemporalActions, identified by their state.
---------------------------------------------------------------- -/

/-- The mutable state of a Sequence of TemporalActions: the working list
of pending child actions and the optional current action. -/
structure SeqState where
  pending : List TemporalState
  current : Option TemporalState
deriving DecidableEq

/-- Sequence.next_action (scene.py:574-581): pop the head of the pending
list, init it (time := 0) and make it current, returning True; on an
empty list return False leaving current_action unchanged. -/
def seqNextAction (s : SeqState) : SeqState × Bool :=
  match s.pending with
  | [] => (s, false)
  | a :: rest => (⟨rest, some { a with time := 0 }⟩, true)

/-- The second half of Sequence.update (scene.py:587-590): advance the
current action; if it is still running keep it, else advance to the next
child, failing (False) when the list is exhausted.  The current slot
keeps the advanced child state in every branch, as the Python objects are
mutated in place. -/
def seqUpdateCurrent (s : SeqState) (delta : Rat) : SeqState × Bool :=
  match s.current with
  | none => (s, true)
  | some a =>
    let p := TemporalState.update a delta
    let s1 : SeqState := { s with current := some p.1 }
    if p.2 then (s1, true)
    else
      let n := seqNextAction s1
      if n.2 then (n.1, true) else (n.1, false)

/-- Sequence.update (scene.py:583-590): if there is no current action,
try to start the first one (returning False if there is none); then
advance the current action as above. -/
def SeqState.update (s : SeqState) (delta : Rat) : SeqState × Bool :=
  match s.current with
  | none =>
    let n := seqNextAction s
    if n.2 then seqUpdateCurrent n.1 delta else (n.1, false)
  | some _ => seqUpdateCurrent s delta

/-- Run Sequence.update over a list of deltas, collecting the returned
booleans in call order. -/
def seqRun (s : SeqState) : List Rat → SeqState × List Bool
  | [] => (s, [])
  | d :: ds =>
    let r := SeqState.update s d
    let rest := seqRun r.1 ds
    (rest.1, r.2 :: rest.2)

/-- Sequence([a, b]) with a and b TemporalActions of duration 1.0, right
after Composite.init: working list copied, no current action yet. -/
def seqAB : SeqState := ⟨[⟨1, 0⟩, ⟨1, 0⟩], none⟩

/- ----------------------------------------------------------------
Repeat (C7) — scene.py:609-635.
---------------------------------------------------------------- -/

/-- The mutable state of Repeat wrapping a TemporalAction: the inner
action's state, the requested cycle count (0 = forever) and
current_count, which starts at 1. -/
structure RepeatState where
  inner : TemporalState
  count : Nat
  currentCount : Nat
deriving DecidableEq

/-- Repeat.update (scene.py:626-635): advance the inner action; if it is
still running return True; if it finished and current_count == count
return False; otherwise increment current_count, restart the inner action
(re-init resets its time to 0, scene.py:623-624 and 393-395) and return
True. -/
def RepeatState.update (r : RepeatState) (delta : Rat) : RepeatState × Bool :=
  let p := TemporalState.update r.inner delta
  if p.2 then ({ r with inner := p.1 }, true)
  else if r.currentCount = r.count then ({ r with inner := p.1 }, false)
  else (⟨⟨p.1.duration, 0⟩, r.count, r.currentCount + 1⟩, true)

/-- State of Repeat after the first k update calls with a fixed delta. -/
def repIter (delta : Rat) (r : RepeatState) : Nat → RepeatState
  | 0 => r
  | k + 1 => (RepeatState.update (repIter delta r k) delta).1

/-- Return value of call number k+1 in that run. -/
def repResult (delta : Rat) (r : RepeatState) (k : Nat) : Bool :=
  (RepeatState.update (repIter delta r k) delta).2

/-- Repeat(action, count) wrapping a TemporalAction of duration 1.0,
right after init: inner time 0, current_count = 1. -/
def repeat1 (count : Nat) : RepeatState := ⟨⟨1, 0⟩, count, 1⟩

/- ----------------------------------------------------------------
Grid placement (C8) — scene.py:154-203.

The parent widget's grid-relevant state: its own rectangle, the ordered
children list, the children_grid dict (a Python dict keyed by the child,
modelled as an insertion-ordered association list from child identity to
(column, row)), the grid extents, and the shapes of the children (also a
dict by child identity; Rectangle.set copies the four fields, so setting
a child shape is recorded as overwriting its entry).  Children are
identified by natural numbers.
---------------------------------------------------------------- -/

/-- Modelled from the spec: Rectangle (vulk/math/shape.py, not under
src/) is a plain record of x, y, width, height. -/
structure Rect where
  x : Rat
  y : Rat
  width : Rat
  height : Rat
deriving DecidableEq

/-- Python dict assignment d[k] = v: replace the value in place when the
key is present (keeping its position), append the pair otherwise. -/
def dictSet {α : Type} (d : List (Nat × α)) (k : Nat) (v : α) : List (Nat × α) :=
  if d.any (fun e => e.1 = k) then
    d.map (fun e => if e.1 = k then (k, v) else e)
  else d ++ [(k, v)]

/-- Grid-relevant state of a parent widget. -/
structure GridWidget where
  shape : Rect
  children : List Nat
  childrenGrid : List (Nat × Nat × Nat)
  columns : Nat
  rows : Nat
  childShapes : List (Nat × Rect)
deriving DecidableEq

/-- Widget.column_width (scene.py:157-159): shape.width / columns. -/
def GridWidget.columnWidth (g : GridWidget) : Rat :=
  g.shape.width / (g.columns : Rat)

/-- Widget.row_width (scene.py:161-163): shape.height / rows. -/
def GridWidget.rowWidth (g : GridWidget) : Rat :=
  g.shape.height / (g.rows : Rat)

/-- Widget.update_grid_size (scene.py:181-185): grow columns to
column + 1 when column is at or beyond the current extent, and likewise
for rows. -/
def GridWidget.updateGridSize (g : GridWidget) (column row : Nat) : GridWidget :=
  let g1 := if column ≥ g.columns then { g with columns := column + 1 } else g
  if row ≥ g1.rows then { g1 with rows := row + 1 } else g1

/-- The scan loop of Widget.register_child_grid (scene.py:189-192):
existing_child starts as None and is overwritten by every key whose value
equals (column, row), so it ends as the last such key. -/
def lastOccupant (grid : List (Nat × Nat × Nat)) (cell : Nat × Nat) : Option Nat :=
  grid.foldl (fun acc e => if e.2 = cell then some e.1 else acc) none

/-- Widget.register_child_grid (scene.py:187-199): evict the existing
occupant of the cell, if any, from both children (list.remove: first
occurrence) and children_grid (dict.pop); then record the new child in
children_grid and append it to children. -/
def GridWidget.registerChildGrid (g : GridWidget) (child : Nat) (column row : Nat) :
    GridWidget :=
  let g1 := match lastOccupant g.childrenGrid (column, row) with
    | some k =>
      { g with children := g.children.erase k,
               childrenGrid := g.childrenGrid.filter (fun e => e.1 ≠ k) }
    | none => g
  { g1 with childrenGrid := dictSet g1.childrenGrid child (column, row),
            children := g1.children ++ [child] }

/-- Widget.grid_position_to_xy (scene.py:201-203). -/
def GridWidget.gridPositionToXY (g : GridWidget) (pos : Nat × Nat) : Rat × Rat :=
  (g.shape.x + (pos.1 : Rat) * g.columnWidth,
   g.shape.y + (pos.2 : Rat) * g.rowWidth)

/-- Widget.reshape_grid (scene.py:176-179): for each grid child, in dict
order, set its shape to the rectangle of its cell. -/
def GridWidget.reshapeGrid (g : GridWidget) : GridWidget :=
  let newShapes :=
    g.childrenGrid.foldl
      (fun shapes e =>
        dictSet shapes e.1
          ⟨(g.gridPositionToXY e.2).1, (g.gridPositionToXY e.2).2,
           g.columnWidth, g.rowWidth⟩)
      g.childShapes
  { g with childShapes := newShapes }

/-- Widget.add_child_to_grid (scene.py:165-174): grow the grid, register
the child, then reshape all grid children. -/
def GridWidget.addChildToGrid (g : GridWidget) (child : Nat) (column row : Nat) :
    GridWidget :=
  ((g.updateGridSize column row).registerChildGrid child column row).reshapeGrid

/-- Grid keys are pairwise distinct (a Python dict cannot hold a key
twice). -/
def GridWidget.gridKeysNodup (g : GridWidget) : Prop :=
  (g.childrenGrid.map (fun e => e.1)).Nodup

/-- At most one grid child occupies any (column, row) cell. -/
def GridWidget.cellUnique (g : GridWidget) : Prop :=
  ∀ e1 ∈ g.childrenGrid, ∀ e2 ∈ g.childrenGrid, e1.2 = e2.2 → e1.1 = e2.1

/-- A fresh parent widget of size (100, 100): no children, empty grid
dict, columns = rows = 1 (Widget.__init__, scene.py:43-54). -/
def gridParent100 : GridWidget := ⟨⟨0, 0, 100, 100⟩, [], [], 1, 1, []⟩

/-- The scenario of the claim: children 1, 2, 3 registered at cells
(0,0), (1,0), (0,1) of a (100,100) parent. -/
def gridScenario : GridWidget :=
  ((gridParent100.addChildToGrid 1 0 0).addChildToGrid 2 1 0).addChildToGrid 3 0 1

/- ----------------------------------------------------------------
color_abs (C9) — scene.py:68-75.

A widget's parent chain is embedded as a nested structure: the widget's
own color (a list of rational components) together with its optional
parent.  color_abs multiplies the parent's color_abs into the widget's
own color component-wise (zip truncates to the shorter list, exactly like
Python's zip) and is the widget's own color at the root.
---------------------------------------------------------------- -/

/-- A widget reduced to the data color_abs reads: its own color and its
parent link (none for a root widget such as a Scene). -/
inductive CWidget where
  | mk (color : List Rat) (parent : Option CWidget)

/-- Widget.color_abs (scene.py:68-75): with a parent, the component-wise
product (over zip) of the parent's color_abs with the widget's own color;
without one, the widget's own color. -/
def CWidget.colorAbs : CWidget → List Rat
  | .mk c none => c
  | .mk c (some p) => List.zipWith (fun a b => a * b) (CWidget.colorAbs p) c

/-- The colors along the ancestor chain, from the root down to and
including the widget itself. -/
def CWidget.chain : CWidget → List (List Rat)
  | .mk c none => [c]
  | .mk c (some p) => CWidget.chain p ++ [c]

/-- Component-wise product of a nonempty list of colors (left fold of the
zip product over the chain). -/
def prodColors : List (List Rat) → List Rat
  | [] => []
  | c :: cs => cs.foldl (List.zipWith (fun a b => a * b)) c

/- ----------------------------------------------------------------
Scene.render (C10) — scene.py:256-282.

For each collected widget, in collection order, the scene looks the
renderer up by widget.get_renderer_name(); a missing key raises VulkError
(the vulk.exception module is outside src/; the spec calls this the
ConfigurationError).  When the name resolves, the renderer's begin /
widget.render / end cycle runs and the semaphore handle of end is carried
to the next widget.  Renderer names are the tree labels; the renderer
registry is the list of known names; the external begin/draw/end calls
are recorded in an invocation log, with the handle returned by end
modelled as the renderer's name.
---------------------------------------------------------------- -/

/-- The loop of Scene.render over the collected widgets, carrying the
current semaphore and the log of renderers invoked so far.  On a missing
renderer name the loop raises, reporting the offending name; at the end
the last semaphore (or none) and the log are returned. -/
def renderLoop (renderers : List Nat) (sem : Option Nat) (log : List Nat) :
    List Nat → Except Nat (Option Nat × List Nat)
  | [] => Except.ok (sem, log)
  | w :: ws =>
    if w ∈ renderers then renderLoop renderers (some w) (log ++ [w]) ws
    else Except.error w

/-- Scene.render (scene.py:256-282): collect the descendants, run the
render loop over them starting with no semaphore, and return the last
semaphore or none if there were no widgets (semaphores[0] if semaphores
else None). -/
def sceneRender (renderers : List Nat) (t : Tree) : Except Nat (Option Nat × List Nat) :=
  renderLoop renderers none [] (Tree.collectLabels t)

end Vulk

/- ----------------------------------------------------------------
General lemmas about the embedded operations.
---------------------------------------------------------------- -/

namespace Vulk

theorem collectList_append_perm (cs : List Tree)
    (ih : ∀ c ∈ cs, (Tree.collect c).Perm (Tree.preorderDesc c)) :
    (cs ++ Tree.collectList cs).Perm (Tree.preorderDescList cs) := by
  induction cs with
  | nil => simp [Tree.collectList, Tree.preorderDescList]
  | cons c cs ihl =>
    have hc : (Tree.collect c).Perm (Tree.preorderDesc c) := ih c (by simp)
    have hcs : (cs ++ Tree.collectList cs).Perm (Tree.preorderDescList cs) :=
      ihl (fun x hx => ih x (by simp [hx]))
    simp only [Tree.collectList, Tree.preorderDescList, List.cons_append]
    refine List.Perm.cons c ?_
    have h1 : cs ++ (Tree.collect c ++ Tree.collectList cs) =
        (cs ++ Tree.collect c) ++ Tree.collectList cs := by
      simp [List.append_assoc]
    have h2 : ((cs ++ Tree.collect c) ++ Tree.collectList cs).Perm
        ((Tree.collect c ++ cs) ++ Tree.collectList cs) :=
      List.Perm.append_right _ List.perm_append_comm
    have h3 : (Tree.collect c ++ cs) ++ Tree.collectList cs =
        Tree.collect c ++ (cs ++ Tree.collectList cs) := by
      simp [List.append_assoc]
    have h4 : (Tree.collect c ++ (cs ++ Tree.collectList cs)).Perm
        (Tree.preorderDesc c ++ Tree.preorderDescList cs) :=
      List.Perm.append hc hcs
    rw [h1]
    exact (h2.trans (h3 ▸ h4))

theorem collect_perm_preorderDesc (t : Tree) :
    (Tree.collect t).Perm (Tree.preorderDesc t) := by
  match t with
  | .node i cs =>
    have ih : ∀ c ∈ cs, (Tree.collect c).Perm (Tree.preorderDesc c) := by
      intro c hc
      exact collect_perm_preorderDesc c
    simpa [Tree.collect, Tree.preorderDesc] using collectList_append_perm cs ih
termination_by sizeOf t
decreasing_by
  have := List.sizeOf_lt_of_mem hc
  simp only [Tree.node.sizeOf_spec]
  omega

theorem preorderDescList_length (cs : List Tree)
    (ih : ∀ c ∈ cs, (Tree.preorderDesc c).length = Tree.countDesc c) :
    (Tree.preorderDescList cs).length = Tree.countDescList cs := by
  induction cs with
  | nil => simp [Tree.preorderDescList, Tree.countDescList]
  | cons c cs ihl =>
    have hc := ih c (by simp)
    have hcs := ihl (fun x hx => ih x (by simp [hx]))
    simp [Tree.preorderDescList, Tree.countDescList, hc, hcs]
    omega

theorem preorderDesc_length (t : Tree) :
    (Tree.preorderDesc t).length = Tree.countDesc t := by
  match t with
  | .node i cs =>
    have ih : ∀ c ∈ cs, (Tree.preorderDesc c).length = Tree.countDesc c := by
      intro c hc
      exact preorderDesc_length c
    simpa [Tree.preorderDesc, Tree.countDesc] using preorderDescList_length cs ih
termination_by sizeOf t
decreasing_by
  have := List.sizeOf_lt_of_mem hc
  simp only [Tree.node.sizeOf_spec]
  omega

theorem prodColors_append_singleton (l : List (List Rat)) (c : List Rat) (h : l ≠ []) :
    prodColors (l ++ [c]) = List.zipWith (fun a b => a * b) (prodColors l) c := by
  match l with
  | x :: xs => simp [prodColors, List.foldl_append]

theorem chain_ne_nil (w : CWidget) : CWidget.chain w ≠ [] := by
  match w with
  | .mk c none => simp [CWidget.chain]
  | .mk c (some p) => simp [CWidget.chain]

theorem colorAbs_eq_prod_chain (w : CWidget) :
    CWidget.colorAbs w = prodColors (CWidget.chain w) := by
  match w with
  | .mk c none => simp [CWidget.colorAbs, CWidget.chain, prodColors]
  | .mk c (some p) =>
    have ih := colorAbs_eq_prod_chain p
    rw [CWidget.colorAbs, CWidget.chain, ih,
      prodColors_append_singleton _ _ (chain_ne_nil p)]
termination_by sizeOf w

theorem taUpdate_fst (s : TemporalState) (d : Rat) :
    (TemporalState.update s d).1 = ⟨s.duration, s.time + d⟩ := by
  rw [TemporalState.update]
  split <;> rfl

theorem taUpdate_snd_false (s : TemporalState) (d : Rat) :
    (TemporalState.update s d).2 = false ↔ (s.time + d) / s.duration ≥ 1 := by
  rw [TemporalState.update]
  split <;> simp_all [TemporalState.percent]

theorem taState_eq (D delta : Rat) (k : Nat) :
    taState D delta k = ⟨D, k * delta⟩ := by
  induction k with
  | zero => simp [taState]
  | succ k ih =>
    rw [taState, ih, taUpdate_fst]
    simp only [TemporalState.mk.injEq, true_and]
    push_cast
    ring

theorem taResult_false_iff (D delta : Rat) (hD : 0 < D) (k : Nat) :
    taResult D delta k = false ↔ D ≤ (k + 1 : Rat) * delta := by
  rw [taResult, taState_eq, taUpdate_snd_false]
  simp only [ge_iff_le]
  rw [one_le_div hD]
  constructor
  · intro h
    calc D ≤ (k : Rat) * delta + delta := h
      _ = ((k : Rat) + 1) * delta := by ring
  · intro h
    calc D ≤ ((k : Rat) + 1) * delta := h
      _ = (k : Rat) * delta + delta := by ring

theorem renderLoop_spec (R : List Nat) :
    ∀ (ws : List Nat) (sem : Option Nat) (log : List Nat),
      ((renderLoop R sem log ws).isOk ↔ ∀ w ∈ ws, w ∈ R) ∧
      (∀ e, renderLoop R sem log ws = Except.error e →
        ws.find? (fun w => decide (w ∉ R)) = some e) ∧
      (ws = [] → renderLoop R sem log ws = Except.ok (sem, log)) := by
  intro ws
  induction ws with
  | nil => simp [renderLoop, Except.isOk, Except.toBool]
  | cons w ws ih =>
    intro sem log
    by_cases hw : w ∈ R
    · have h := ih (some w) (log ++ [w])
      simp only [renderLoop, if_pos hw]
      refine ⟨?_, ?_, ?_⟩
      · rw [h.1]
        simp [hw]
      · intro e he
        have hfind := (h.2).1 e he
        rw [List.find?]
        have hww : decide (w ∉ R) = false := by simp [hw]
        rw [hww]
        exact hfind
      · intro hcontr
        exact absurd hcontr (by simp)
    · simp [renderLoop, hw, List.find?, Except.isOk, Except.toBool]

theorem moveByRun_cons (s : MoveByState) (sh : ShapeXY) (d : Rat) (ds : List Rat) :
    moveByRun s sh (d :: ds) =
      moveByRun (MoveByState.update s sh d).1 (MoveByState.update s sh d).2.1 ds := rfl

theorem seqRun_cons (s : SeqState) (d : Rat) (ds : List Rat) :
    seqRun s (d :: ds) =
      ((seqRun (SeqState.update s d).1 ds).1,
       (SeqState.update s d).2 :: (seqRun (SeqState.update s d).1 ds).2) := rfl

theorem moveBy_step_mid (t x y d : Rat) (hlt : t + d < 1) :
    MoveByState.update ⟨1, t, 10, 0, 10 * t, 0⟩ ⟨x, y⟩ d =
      (⟨1, t + d, 10, 0, 10 * (t + d), 0⟩, ⟨x + 10 * d, y⟩, true) := by
  rw [MoveByState.update]
  simp only [Linear.apply]
  rw [if_neg (by simp only [div_one]; push_neg; linarith)]
  norm_num
  ring

theorem moveBy_step_final (t x y d : Rat) (hge : 1 ≤ t + d) :
    MoveByState.update ⟨1, t, 10, 0, 10 * t, 0⟩ ⟨x, y⟩ d =
      (⟨1, t + d, 10, 0, 10 * t, 0⟩, ⟨x, y⟩, false) := by
  rw [MoveByState.update]
  rw [if_pos (by simp only [div_one]; linarith)]

theorem moveBy_run_shape : ∀ (ds : List Rat) (t x y : Rat),
    (∀ d ∈ ds, 0 < d) → 0 ≤ t → t + ds.sum = 1 → ds ≠ [] →
    (moveByRun ⟨1, t, 10, 0, 10 * t, 0⟩ ⟨x, y⟩ ds).2 =
      ⟨x + 10 * (1 - ds.getLastD 0) - 10 * t, y⟩ := by
  intro ds
  induction ds with
  | nil => intro t x y hpos ht hsum hne; exact absurd rfl hne
  | cons d ds ih =>
    intro t x y hpos ht hsum hne
    match ds, hsum with
    | [], hsum =>
      have hd : t + d = 1 := by simpa using hsum
      have hgl : ([d] : List Rat).getLastD 0 = d := rfl
      rw [moveByRun_cons, moveBy_step_final t x y d (le_of_eq hd.symm)]
      simp only [moveByRun, hgl, ShapeXY.mk.injEq]
      constructor
      · linarith
      · trivial
    | d2 :: ds2, hsum =>
      have hpos2 : ∀ e ∈ d2 :: ds2, 0 < e := fun e he => hpos e (by simp [he])
      have hdpos : 0 < d := hpos d (by simp)
      have hsumpos : 0 < (d2 :: ds2).sum := List.sum_pos _ hpos2 (by simp)
      have hsum2 : (t + d) + (d2 :: ds2).sum = 1 := by
        simp only [List.sum_cons] at hsum ⊢
        linarith
      have hlt : t + d < 1 := by linarith
      rw [moveByRun_cons, moveBy_step_mid t x y d hlt]
      simp only
      rw [ih (t + d) (x + 10 * d) y hpos2 (by linarith) hsum2 (by simp)]
      have hlast : (d :: d2 :: ds2).getLastD 0 = (d2 :: ds2).getLastD 0 := by
        simp [List.getLastD]
      rw [hlast]
      simp only [ShapeXY.mk.injEq]
      constructor
      · ring
      · trivial

theorem seq_first_call (a : TemporalState) (rest : List TemporalState) (d : Rat) :
    SeqState.update ⟨a :: rest, none⟩ d =
      SeqState.update ⟨rest, some { a with time := 0 }⟩ d := by
  simp [SeqState.update, seqNextAction]

theorem taUpdate_lt (t d : Rat) (h : t + d < 1) :
    TemporalState.update ⟨1, t⟩ d = (⟨1, t + d⟩, true) := by
  rw [TemporalState.update]
  rw [if_neg (by simp only [TemporalState.percent, div_one]; push_neg; linarith)]

theorem taUpdate_ge (t d : Rat) (h : 1 ≤ t + d) :
    TemporalState.update ⟨1, t⟩ d = (⟨1, t + d⟩, false) := by
  rw [TemporalState.update]
  rw [if_pos (by simp only [TemporalState.percent, div_one]; linarith)]

theorem seq_step_mid (t d : Rat) (hlt : t + d < 1) :
    SeqState.update ⟨[⟨1, 0⟩], some ⟨1, t⟩⟩ d =
      (⟨[⟨1, 0⟩], some ⟨1, t + d⟩⟩, true) := by
  simp only [SeqState.update, seqUpdateCurrent]
  rw [taUpdate_lt t d hlt]
  simp

theorem seq_step_final (t d : Rat) (hge : 1 ≤ t + d) :
    SeqState.update ⟨[⟨1, 0⟩], some ⟨1, t⟩⟩ d =
      (⟨[], some ⟨1, 0⟩⟩, true) := by
  simp only [SeqState.update, seqUpdateCurrent]
  rw [taUpdate_ge t d hge]
  simp [seqNextAction]

theorem seq_phase1 : ∀ (ds : List Rat) (t : Rat),
    (∀ d ∈ ds, 0 < d) → t + ds.sum = 1 → ds ≠ [] →
    seqRun ⟨[⟨1, 0⟩], some ⟨1, t⟩⟩ ds =
      (⟨[], some ⟨1, 0⟩⟩, List.replicate ds.length true) := by
  intro ds
  induction ds with
  | nil => intro t hpos hsum hne; exact absurd rfl hne
  | cons d ds ih =>
    intro t hpos hsum hne
    match ds, hsum with
    | [], hsum =>
      have hd : t + d = 1 := by simpa using hsum
      rw [seqRun_cons, seq_step_final t d (le_of_eq hd.symm)]
      simp [seqRun]
    | d2 :: ds2, hsum =>
      have hpos2 : ∀ e ∈ d2 :: ds2, 0 < e := fun e he => hpos e (by simp [he])
      have hsumpos : 0 < (d2 :: ds2).sum := List.sum_pos _ hpos2 (by simp)
      have hsum2 : (t + d) + (d2 :: ds2).sum = 1 := by
        simp only [List.sum_cons] at hsum ⊢
        linarith
      have hlt : t + d < 1 := by linarith
      rw [seqRun_cons, seq_step_mid t d hlt]
      simp only
      rw [ih (t + d) hpos2 hsum2 (by simp)]
      simp [List.replicate]

theorem seq_tail_step (t d : Rat) :
    SeqState.update ⟨[], some ⟨1, t⟩⟩ d =
      (⟨[], some ⟨1, t + d⟩⟩, decide (t + d < 1)) := by
  simp only [SeqState.update, seqUpdateCurrent]
  by_cases h : t + d < 1
  · rw [taUpdate_lt t d h]
    simp [h, seqNextAction]
  · push_neg at h
    rw [taUpdate_ge t d h]
    simp [seqNextAction]
    linarith

theorem seq_phase2 : ∀ (ds : List Rat) (t : Rat) (j : Nat), j < ds.length →
    ((seqRun ⟨[], some ⟨1, t⟩⟩ ds).2.getD j true) =
      decide (t + (ds.take (j + 1)).sum < 1) := by
  intro ds
  induction ds with
  | nil => intro t j hj; simp at hj
  | cons d ds ih =>
    intro t j hj
    rw [seqRun_cons, seq_tail_step]
    match j with
    | 0 => simp
    | j + 1 =>
      have hj2 : j < ds.length := by simpa using hj
      have hih := ih (t + d) j hj2
      simp only [List.getD_cons_succ, List.take, List.sum_cons]
      rw [hih]
      congr 1
      rw [add_assoc]

theorem rep_update_mid (m r count c : Nat) (hm : 1 ≤ m) (hr : r + 1 < m) :
    RepeatState.update ⟨⟨1, (r : Rat) / (m : Rat)⟩, count, c⟩ (1 / (m : Rat)) =
      (⟨⟨1, ((r + 1 : Nat) : Rat) / (m : Rat)⟩, count, c⟩, true) := by
  have hm0 : (0 : Rat) < (m : Rat) := by
    exact_mod_cast Nat.lt_of_lt_of_le Nat.zero_lt_one hm
  have hsum : (r : Rat) / (m : Rat) + 1 / (m : Rat) = ((r + 1 : Nat) : Rat) / (m : Rat) := by
    push_cast
    rw [div_add_div_same]
  have hlt : (r : Rat) / (m : Rat) + 1 / (m : Rat) < 1 := by
    rw [hsum, div_lt_one hm0]
    exact_mod_cast hr
  rw [RepeatState.update, taUpdate_lt _ _ hlt]
  rw [hsum]
  simp

theorem rep_update_end (m r count c : Nat) (hm : 1 ≤ m) (hr : r + 1 = m) :
    RepeatState.update ⟨⟨1, (r : Rat) / (m : Rat)⟩, count, c⟩ (1 / (m : Rat)) =
      (if c = count then (⟨⟨1, 1⟩, count, c⟩, false)
       else (⟨⟨1, 0⟩, count, c + 1⟩, true)) := by
  have hm0 : (0 : Rat) < (m : Rat) := by
    exact_mod_cast Nat.lt_of_lt_of_le Nat.zero_lt_one hm
  have hsum : (r : Rat) / (m : Rat) + 1 / (m : Rat) = 1 := by
    rw [div_add_div_same]
    rw [div_eq_one_iff_eq (by positivity)]
    exact_mod_cast hr
  rw [RepeatState.update, taUpdate_ge _ _ (le_of_eq hsum.symm)]
  rw [hsum]
  by_cases hc : c = count
  · simp [hc]
  · simp [hc]

theorem rep_inv (m : Nat) (hm : 1 ≤ m) (count : Nat) :
    ∀ k : Nat, (count = 0 ∨ k < count * m) →
      repIter (1 / (m : Rat)) (repeat1 count) k =
        ⟨⟨1, ((k % m : Nat) : Rat) / (m : Rat)⟩, count, k / m + 1⟩ := by
  intro k
  induction k with
  | zero =>
    intro hcond
    simp [repIter, repeat1, Nat.zero_mod, Nat.zero_div]
  | succ k ih =>
    intro hcond
    have hcondk : count = 0 ∨ k < count * m := by
      rcases hcond with h | h
      · exact Or.inl h
      · exact Or.inr (Nat.lt_of_succ_lt h)
    rw [repIter, ih hcondk]
    have hr : k % m < m := Nat.mod_lt _ (Nat.lt_of_lt_of_le Nat.zero_lt_one hm)
    have hkdm : m * (k / m) + k % m = k := Nat.div_add_mod k m
    by_cases hcase : k % m + 1 < m
    · rw [rep_update_mid m (k % m) count (k / m + 1) hm hcase]
      have hmod : (k + 1) % m = k % m + 1 := by
        have h1 : k + 1 = m * (k / m) + (k % m + 1) := by omega
        rw [h1, Nat.mul_add_mod, Nat.mod_eq_of_lt hcase]
      have hdiv2 : (k + 1) / m = k / m := by
        have h1 : k + 1 = m * (k / m) + (k % m + 1) := by omega
        rw [h1, Nat.mul_add_div (by omega), Nat.div_eq_of_lt hcase, Nat.add_zero]
      rw [hmod, hdiv2]
    · have hend : k % m + 1 = m := by omega
      rw [rep_update_end m (k % m) count (k / m + 1) hm hend]
      have hk1 : k + 1 = m * (k / m + 1) := by
        rw [Nat.mul_add, Nat.mul_one]
        omega
      have hmod : (k + 1) % m = 0 := by
        rw [hk1]
        exact Nat.mul_mod_right m _
      have hdiv2 : (k + 1) / m = k / m + 1 := by
        rw [hk1]
        exact Nat.mul_div_cancel_left _ (by omega)
      have hne : ¬ (k / m + 1 = count) := by
        rcases hcond with h | h
        · rw [h]
          exact Nat.succ_ne_zero _
        · have : k + 1 < count * m := h
          rw [hk1] at this
          have := Nat.lt_of_mul_lt_mul_left (a := m) (by
            calc m * (k / m + 1) < count * m := this
              _ = m * count := Nat.mul_comm count m)
          omega
      rw [if_neg hne, hmod, hdiv2]
      simp

theorem rep_result_count3 (m : Nat) (hm : 1 ≤ m) (k : Nat) (hk : k < 3 * m) :
    repResult (1 / (m : Rat)) (repeat1 3) k = false ↔ k + 1 = 3 * m := by
  rw [repResult, rep_inv m hm 3 k (Or.inr hk)]
  have hm0 : 0 < m := Nat.lt_of_lt_of_le Nat.zero_lt_one hm
  have hr : k % m < m := Nat.mod_lt _ hm0
  have hkdm : m * (k / m) + k % m = k := Nat.div_add_mod k m
  by_cases hcase : k % m + 1 < m
  · rw [rep_update_mid m (k % m) 3 (k / m + 1) hm hcase]
    simp only [Bool.true_eq_false, false_iff]
    intro hcontr
    have h1 : k + 1 = m * (k / m) + (k % m + 1) := by omega
    have hmod : (k + 1) % m = k % m + 1 := by
      rw [h1, Nat.mul_add_mod, Nat.mod_eq_of_lt hcase]
    have hmod0 : (k + 1) % m = 0 := by
      rw [hcontr]
      exact Nat.mul_mod_left 3 m
    omega
  · have hend : k % m + 1 = m := by omega
    rw [rep_update_end m (k % m) 3 (k / m + 1) hm hend]
    have hk1 : k + 1 = m * (k / m + 1) := by
      rw [Nat.mul_add, Nat.mul_one]
      omega
    by_cases hq : k / m + 1 = 3
    · rw [if_pos hq]
      simp only [true_iff]
      rw [hk1, hq, Nat.mul_comm]
    · rw [if_neg hq]
      simp only [Bool.true_eq_false, false_iff]
      intro hcontr
      have : m * (k / m + 1) = m * 3 := by
        rw [← hk1, hcontr, Nat.mul_comm]
      exact hq (Nat.eq_of_mul_eq_mul_left hm0 this)

theorem rep_result_count0 (m : Nat) (hm : 1 ≤ m) (k : Nat) :
    repResult (1 / (m : Rat)) (repeat1 0) k = true := by
  rw [repResult, rep_inv m hm 0 k (Or.inl rfl)]
  have hm0 : 0 < m := Nat.lt_of_lt_of_le Nat.zero_lt_one hm
  have hr : k % m < m := Nat.mod_lt _ hm0
  by_cases hcase : k % m + 1 < m
  · rw [rep_update_mid m (k % m) 0 (k / m + 1) hm hcase]
  · have hend : k % m + 1 = m := by omega
    rw [rep_update_end m (k % m) 0 (k / m + 1) hm hend]
    rw [if_neg (Nat.succ_ne_zero _)]

theorem lastOccupant_fold_const (cell : Nat × Nat) (k : Nat) :
    ∀ d : List (Nat × Nat × Nat), (∀ e ∈ d, e.2 = cell → e.1 = k) →
      d.foldl (fun acc e => if e.2 = cell then some e.1 else acc) (some k) = some k := by
  intro d
  induction d with
  | nil => intro h; rfl
  | cons e d ih =>
    intro h
    rw [List.foldl_cons]
    by_cases he : e.2 = cell
    · rw [if_pos he, h e (by simp) he]
      exact ih (fun x hx => h x (by simp [hx]))
    · rw [if_neg he]
      exact ih (fun x hx => h x (by simp [hx]))

theorem lastOccupant_eq_some :
    ∀ (d : List (Nat × Nat × Nat)) (cell : Nat × Nat) (k : Nat),
      (k, cell) ∈ d → (∀ e ∈ d, e.2 = cell → e.1 = k) →
      lastOccupant d cell = some k := by
  intro d
  induction d with
  | nil => intro cell k hmem; simp at hmem
  | cons e d ih =>
    intro cell k hmem huniq
    rw [lastOccupant, List.foldl_cons]
    by_cases he : e.2 = cell
    · rw [if_pos he, huniq e (by simp) he]
      exact lastOccupant_fold_const cell k d (fun x hx => huniq x (by simp [hx]) )
    · rw [if_neg he]
      have hmem2 : (k, cell) ∈ d := by
        rcases List.mem_cons.mp hmem with h | h
        · exact absurd (by rw [← h]) he
        · exact h
      exact ih cell k hmem2 (fun x hx => huniq x (by simp [hx]))

theorem dictSet_append_of_no_key {α : Type} (d : List (Nat × α)) (k : Nat) (v : α)
    (h : ∀ e ∈ d, e.1 ≠ k) : dictSet d k v = d ++ [(k, v)] := by
  rw [dictSet, if_neg]
  simp only [List.any_eq_true, not_exists]
  push_neg
  intro e he
  simp [h e he]

theorem mem_dictSet {α : Type} (d : List (Nat × α)) (k : Nat) (v : α) (e : Nat × α)
    (hmem : e ∈ dictSet d k v) : e = (k, v) ∨ (e ∈ d ∧ e.1 ≠ k) := by
  rw [dictSet] at hmem
  by_cases hany : d.any (fun x => x.1 = k) = true
  · rw [if_pos hany] at hmem
    rcases List.mem_map.mp hmem with ⟨x, hx, hfx⟩
    by_cases hxk : x.1 = k
    · rw [if_pos hxk] at hfx
      exact Or.inl hfx.symm
    · rw [if_neg hxk] at hfx
      exact Or.inr ⟨hfx ▸ hx, hfx ▸ hxk⟩
  · rw [if_neg hany] at hmem
    rcases List.mem_append.mp hmem with h | h
    · refine Or.inr ⟨h, ?_⟩
      simp only [List.any_eq_true, not_exists] at hany
      push_neg at hany
      have := hany e h
      simpa using this
    · exact Or.inl (by simpa using h)

theorem reshapeGrid_children (g : GridWidget) :
    (GridWidget.reshapeGrid g).children = g.children := rfl

theorem reshapeGrid_childrenGrid (g : GridWidget) :
    (GridWidget.reshapeGrid g).childrenGrid = g.childrenGrid := rfl

theorem updateGridSize_children (g : GridWidget) (c r : Nat) :
    (GridWidget.updateGridSize g c r).children = g.children := by
  rw [GridWidget.updateGridSize]
  split <;> split <;> rfl

theorem updateGridSize_childrenGrid (g : GridWidget) (c r : Nat) :
    (GridWidget.updateGridSize g c r).childrenGrid = g.childrenGrid := by
  rw [GridWidget.updateGridSize]
  split <;> split <;> rfl

theorem registerChildGrid_evicts (g : GridWidget) (child k column row : Nat)
    (hcell : g.cellUnique) (hnodup : g.children.Nodup)
    (hchild : child ∉ g.children) (hsub : ∀ e ∈ g.childrenGrid, e.1 ∈ g.children)
    (hk : (k, column, row) ∈ g.childrenGrid) :
    k ∉ (GridWidget.registerChildGrid g child column row).children ∧
    (∀ e ∈ (GridWidget.registerChildGrid g child column row).childrenGrid, e.1 ≠ k) ∧
    (GridWidget.registerChildGrid g child column row).cellUnique ∧
    child ∈ (GridWidget.registerChildGrid g child column row).children ∧
    (child, column, row) ∈ (GridWidget.registerChildGrid g child column row).childrenGrid := by
  have hkmem : k ∈ g.children := hsub _ hk
  have hkc : k ≠ child := by
    intro h
    exact hchild (h ▸ hkmem)
  have huniq : ∀ e ∈ g.childrenGrid, e.2 = (column, row) → e.1 = k := by
    intro e he h2
    exact hcell e he (k, column, row) hk h2
  have hlast : lastOccupant g.childrenGrid (column, row) = some k :=
    lastOccupant_eq_some g.childrenGrid (column, row) k hk huniq
  have hgrid1 : GridWidget.registerChildGrid g child column row =
      { g with
        childrenGrid :=
          dictSet (g.childrenGrid.filter (fun e => e.1 ≠ k)) child (column, row),
        children := (g.children.erase k) ++ [child] } := by
    rw [GridWidget.registerChildGrid, hlast]
  rw [hgrid1]
  have hfilter_no_child : ∀ e ∈ g.childrenGrid.filter (fun e => e.1 ≠ k), e.1 ≠ child := by
    intro e he
    have hmem := (List.mem_filter.mp he).1
    intro hec
    exact hchild (hec ▸ hsub e hmem)
  have hset : dictSet (g.childrenGrid.filter (fun e => e.1 ≠ k)) child (column, row) =
      g.childrenGrid.filter (fun e => e.1 ≠ k) ++ [(child, column, row)] :=
    dictSet_append_of_no_key _ _ _ hfilter_no_child
  refine ⟨?_, ?_, ?_, ?_, ?_⟩
  · simp only [List.mem_append, List.mem_singleton]
    push_neg
    refine ⟨?_, hkc⟩
    intro hcontr
    have := (List.Nodup.mem_erase_iff hnodup).mp hcontr
    exact this.1 rfl
  · intro e he
    rcases mem_dictSet _ _ _ _ he with h | h
    · rw [h]
      exact fun hc => hkc hc.symm
    · have := (List.mem_filter.mp h.1).2
      simpa using this
  · intro e1 he1 e2 he2 h12
    simp only at he1 he2
    rcases mem_dictSet _ _ _ _ he1 with h1 | h1 <;>
      rcases mem_dictSet _ _ _ _ he2 with h2 | h2
    · rw [h1, h2]
    · exfalso
      have he2g := (List.mem_filter.mp h2.1).1
      have he2k : e2.1 ≠ k := by
        have := (List.mem_filter.mp h2.1).2
        simpa using this
      have : e2.1 = k := hcell e2 he2g (k, column, row) hk (by rw [← h12, h1])
      exact he2k this
    · exfalso
      have he1g := (List.mem_filter.mp h1.1).1
      have he1k : e1.1 ≠ k := by
        have := (List.mem_filter.mp h1.1).2
        simpa using this
      have : e1.1 = k := hcell e1 he1g (k, column, row) hk (by rw [h12, h2])
      exact he1k this
    · exact hcell e1 (List.mem_filter.mp h1.1).1 e2 (List.mem_filter.mp h2.1).1 h12
  · simp
  · simp only [hset, List.mem_append, List.mem_singleton]
    simp

theorem addChildToGrid_evicts (g : GridWidget) (child k column row : Nat)
    (hcell : g.cellUnique) (hnodup : g.children.Nodup)
    (hchild : child ∉ g.children) (hsub : ∀ e ∈ g.childrenGrid, e.1 ∈ g.children)
    (hk : (k, column, row) ∈ g.childrenGrid) :
    k ∉ (GridWidget.addChildToGrid g child column row).children ∧
    (∀ e ∈ (GridWidget.addChildToGrid g child column row).childrenGrid, e.1 ≠ k) ∧
    (GridWidget.addChildToGrid g child column row).cellUnique ∧
    child ∈ (GridWidget.addChildToGrid g child column row).children ∧
    (child, column, row) ∈ (GridWidget.addChildToGrid g child column row).childrenGrid := by
  have h1 : GridWidget.addChildToGrid g child column row =
      GridWidget.reshapeGrid
        (GridWidget.registerChildGrid (GridWidget.updateGridSize g column row)
          child column row) := rfl
  have hcell2 : (GridWidget.updateGridSize g column row).cellUnique := by
    rw [GridWidget.cellUnique, updateGridSize_childrenGrid]
    exact hcell
  have hnodup2 : (GridWidget.updateGridSize g column row).children.Nodup := by
    rw [updateGridSize_children]
    exact hnodup
  have hchild2 : child ∉ (GridWidget.updateGridSize g column row).children := by
    rw [updateGridSize_children]
    exact hchild
  have hsub2 : ∀ e ∈ (GridWidget.updateGridSize g column row).childrenGrid,
      e.1 ∈ (GridWidget.updateGridSize g column row).children := by
    rw [updateGridSize_childrenGrid, updateGridSize_children]
    exact hsub
  have hk2 : (k, column, row) ∈ (GridWidget.updateGridSize g column row).childrenGrid := by
    rw [updateGridSize_childrenGrid]
    exact hk
  have := registerChildGrid_evicts (GridWidget.updateGridSize g column row)
    child k column row hcell2 hnodup2 hchild2 hsub2 hk2
  rw [h1]
  rw [reshapeGrid_children, reshapeGrid_childrenGrid, GridWidget.cellUnique,
    reshapeGrid_childrenGrid]
  exact this

end Vulk

namespace Vulk

theorem g1_eval : GridWidget.addChildToGrid gridParent100 1 0 0 =
    ⟨⟨0, 0, 100, 100⟩, [1], [(1, 0, 0)], 1, 1, [(1, ⟨0, 0, 100, 100⟩)]⟩ := by
  norm_num [gridParent100, GridWidget.addChildToGrid, GridWidget.updateGridSize,
    GridWidget.registerChildGrid, GridWidget.reshapeGrid, GridWidget.gridPositionToXY,
    GridWidget.columnWidth, GridWidget.rowWidth, lastOccupant, dictSet]

theorem g2_eval : GridWidget.addChildToGrid (GridWidget.addChildToGrid gridParent100 1 0 0) 2 1 0 =
    ⟨⟨0, 0, 100, 100⟩, [1, 2], [(1, 0, 0), (2, 1, 0)], 2, 1,
     [(1, ⟨0, 0, 50, 100⟩), (2, ⟨50, 0, 50, 100⟩)]⟩ := by
  rw [g1_eval]
  simp +decide [GridWidget.addChildToGrid, GridWidget.updateGridSize,
    GridWidget.registerChildGrid, GridWidget.reshapeGrid, GridWidget.gridPositionToXY,
    GridWidget.columnWidth, GridWidget.rowWidth, lastOccupant, dictSet]
  norm_num

theorem g3_eval : gridScenario =
    ⟨⟨0, 0, 100, 100⟩, [1, 2, 3], [(1, 0, 0), (2, 1, 0), (3, 0, 1)], 2, 2,
     [(1, ⟨0, 0, 50, 50⟩), (2, ⟨50, 0, 50, 50⟩), (3, ⟨0, 50, 50, 50⟩)]⟩ := by
  rw [gridScenario, g2_eval]
  simp +decide [GridWidget.addChildToGrid, GridWidget.updateGridSize,
    GridWidget.registerChildGrid, GridWidget.reshapeGrid, GridWidget.gridPositionToXY,
    GridWidget.columnWidth, GridWidget.rowWidth, lastOccupant, dictSet]
  norm_num

theorem g4_eval : GridWidget.addChildToGrid gridScenario 4 0 0 =
    ⟨⟨0, 0, 100, 100⟩, [2, 3, 4], [(2, 1, 0), (3, 0, 1), (4, 0, 0)], 2, 2,
     [(1, ⟨0, 0, 50, 50⟩), (2, ⟨50, 0, 50, 50⟩), (3, ⟨0, 50, 50, 50⟩), (4, ⟨0, 0, 50, 50⟩)]⟩ := by
  rw [g3_eval]
  simp +decide [GridWidget.addChildToGrid, GridWidget.updateGridSize,
    GridWidget.registerChildGrid, GridWidget.reshapeGrid, GridWidget.gridPositionToXY,
    GridWidget.columnWidth, GridWidget.rowWidth, lastOccupant, dictSet, List.erase]
  norm_num

end Vulk

/- ----------------------------------------------------------------
Claim theorems.
---------------------------------------------------------------- -/

namespace Vulk

/-- C1: the claim states that one Scene.update(delta) advances each
descendant widget's attached actions by delta exactly once, regardless of
depth.  The code violates this: Scene.update calls the tree-recursive
Widget.update on every collected descendant, so a grandchild's actions
are advanced once through its parent's recursion and once through its own
entry in the flat list.  On the scene 0 with child 1 and grandchild 2,
with delta = 1 and all accumulators 0, widget 2's actions receive a total
advance of 2, not 1. -/
theorem c1_scene_update_advances_twice :
    Tree.sceneUpdate c1DemoScene 1 (fun _ => 0) 2 = 2 ∧
    ¬ Tree.sceneUpdate c1DemoScene 1 (fun _ => 0) 2 = 1 := by
  have h : Tree.sceneUpdate c1DemoScene 1 (fun _ => 0) 2 = 2 := by
    simp [c1DemoScene, Tree.sceneUpdate, Tree.collect, Tree.collectList,
      Tree.wUpdate, Tree.wUpdateList, bumpStore]
    norm_num
  refine ⟨h, ?_⟩
  rw [h]
  norm_num

/-- C2: the claim states remove_action on an attached action completes
without error and removes it.  The code instead calls the nonexistent
method unset_widget, raising AttributeError, for every action that is in
the list; for an action not in the list the method is never reached and
the list is returned unchanged. -/
theorem c2_remove_action_raises :
    removeAction [7] 7 = Except.error PyError.attributeError ∧
    removeAction [9] 7 = Except.ok [9] :=
  ⟨rfl, rfl⟩

/-- C3 counterexample: a single update call of delta = 1.0 is a positive
sequence summing to exactly 1.0, yet the widget does not move at all: the
terminal call returns false before applying any displacement, so the
cumulative displacement is (0, 0), not (10, 0). -/
theorem c3_counterexample :
    (0 : Rat) < 1 ∧ ([(1 : Rat)]).sum = 1 ∧
    (moveByRun moveBy10 ⟨0, 0⟩ [1]).2 = ⟨0, 0⟩ ∧
    ¬ (moveByRun moveBy10 ⟨0, 0⟩ [1]).2 = ⟨10, 0⟩ := by
  have h : (moveByRun moveBy10 ⟨0, 0⟩ [1]).2 = (⟨0, 0⟩ : ShapeXY) := by
    norm_num [moveByRun, moveBy10, MoveByState.update, Linear.apply]
  refine ⟨by norm_num, by norm_num, h, ?_⟩
  rw [h]
  simp only [ShapeXY.mk.injEq]
  norm_num

/-- C3 amended: for MoveBy(10, 0, 1.0) under Linear interpolation and any
finite sequence of positive deltas summing to exactly 1.0, every call but
the last applies an increment and the final call (at which accumulated
time reaches the duration) returns false without applying movement, so
the cumulative displacement is (10 * (1 - last delta), 0) — it depends on
the split (one call of 1.0 moves (0,0); ten calls of 0.1 move (9,0)). -/
theorem c3_moveby_linear_displacement (ds : List Rat) (x y : Rat)
    (hpos : ∀ d ∈ ds, 0 < d) (hsum : ds.sum = 1) :
    (moveByRun moveBy10 ⟨x, y⟩ ds).2 = ⟨x + 10 * (1 - ds.getLastD 0), y⟩ := by
  have hne : ds ≠ [] := by
    rintro rfl
    simp at hsum
  have h := moveBy_run_shape ds 0 x y hpos le_rfl (by rw [zero_add, hsum]) hne
  have hmb : moveBy10 = (⟨1, 0, 10, 0, 10 * 0, 0⟩ : MoveByState) := by
    rw [moveBy10]
    norm_num
  rw [hmb, h]
  norm_num

/-- C3 witness: two calls of 0.5 move the widget by exactly 5 in x. -/
theorem c3_moveby_linear_displacement_witness :
    (moveByRun moveBy10 ⟨0, 0⟩ [1/2, 1/2]).2 = ⟨5, 0⟩ := by
  have h := c3_moveby_linear_displacement [1/2, 1/2] 0 0 (by norm_num) (by norm_num)
  rw [h]
  norm_num [List.getLastD]

/-- C4 counterexample: on the tree with children 1, 2 where 1 has child 3,
collect_children returns the labels in order [1, 2, 3] (siblings before
descendants), while the pre-order of the descendants is [1, 3, 2]: node 1
is not immediately followed by its descendant 3. -/
theorem c4_counterexample :
    Tree.collectLabels c4DemoTree = [1, 2, 3] ∧
    Tree.preorderLabels c4DemoTree = [1, 3, 2] ∧
    ¬ Tree.collectLabels c4DemoTree = Tree.preorderLabels c4DemoTree := by
  have h1 : Tree.collectLabels c4DemoTree = [1, 2, 3] := by
    simp [c4DemoTree, Tree.collectLabels, Tree.collect, Tree.collectList, Tree.label]
  have h2 : Tree.preorderLabels c4DemoTree = [1, 3, 2] := by
    simp [c4DemoTree, Tree.preorderLabels, Tree.preorderDesc, Tree.preorderDescList,
      Tree.label]
  refine ⟨h1, h2, ?_⟩
  rw [h1, h2]
  simp

/-- C4 amended: collect_children returns exactly the descendants (a
permutation of the pre-order descendant sequence, though in
siblings-first order rather than pre-order), and its length equals the
total descendant count.  Stability across repeated calls is immediate
since the embedded collect is a pure recomputation. -/
theorem c4_collect_children_content (t : Tree) :
    (Tree.collect t).Perm (Tree.preorderDesc t) ∧
    (Tree.collect t).length = Tree.countDesc t := by
  refine ⟨collect_perm_preorderDesc t, ?_⟩
  rw [(collect_perm_preorderDesc t).length_eq, preorderDesc_length]

/-- C5: for a TemporalAction of duration D > 0 driven by a fixed positive
delta, the k-th update call (whose accumulated time is k * delta) returns
false exactly when that accumulated time has reached or exceeded D, hence
false on the first such call and true on all earlier ones. -/
theorem c5_temporal_false_iff (D delta : Rat) (hD : 0 < D) (_hdelta : 0 < delta)
    (k : Nat) : taResult D delta k = false ↔ D ≤ (k + 1 : Rat) * delta :=
  taResult_false_iff D delta hD k

/-- C5 witness: with D = 1 and delta = 1/2 the first call returns true and
the second returns false. -/
theorem c5_temporal_false_iff_witness :
    taResult 1 (1/2) 1 = false ∧ taResult 1 (1/2) 0 = true := by
  constructor
  · exact (c5_temporal_false_iff 1 (1/2) (by norm_num) (by norm_num) 1).mpr (by norm_num)
  · cases hr : taResult 1 (1/2) 0 with
    | false =>
      have := (c5_temporal_false_iff 1 (1/2) (by norm_num) (by norm_num) 0).mp hr
      norm_num at this
    | true => rfl

end Vulk

namespace Vulk

/-- C6: for Sequence([a, b]) with both children of duration 1.0, any run
of positive deltas summing to exactly 1.0 returns true on every call and
ends with child a finished and discarded, the pending list empty and the
current action the freshly initialized b (time 0, not yet advanced); from
that state, a further call returns true exactly while the additional
accumulated time stays below 1.0 (total below 2.0), so update first
returns false on the call at which the total first reaches 2.0. -/
theorem c6_sequence_one_then_two (ds1 ds2 : List Rat)
    (hpos1 : ∀ d ∈ ds1, 0 < d) (hsum1 : ds1.sum = 1) :
    seqRun seqAB ds1 = (⟨[], some ⟨1, 0⟩⟩, List.replicate ds1.length true) ∧
    (∀ j < ds2.length,
      ((seqRun (seqRun seqAB ds1).1 ds2).2.getD j true) =
        decide ((ds2.take (j + 1)).sum < 1)) := by
  have hne : ds1 ≠ [] := by
    rintro rfl
    simp at hsum1
  obtain ⟨d, rest, rfl⟩ : ∃ d rest, ds1 = d :: rest := by
    cases ds1 with
    | nil => exact absurd rfl hne
    | cons d rest => exact ⟨d, rest, rfl⟩
  have hupd : SeqState.update seqAB d = SeqState.update ⟨[⟨1, 0⟩], some ⟨1, 0⟩⟩ d :=
    seq_first_call ⟨1, 0⟩ [⟨1, 0⟩] d
  have hrun : seqRun seqAB (d :: rest) = seqRun ⟨[⟨1, 0⟩], some ⟨1, 0⟩⟩ (d :: rest) := by
    rw [seqRun_cons, seqRun_cons, hupd]
  have hphase1 := seq_phase1 (d :: rest) 0 hpos1 (by rw [zero_add]; exact hsum1) (by simp)
  have hmain : seqRun seqAB (d :: rest) =
      (⟨[], some ⟨1, 0⟩⟩, List.replicate (d :: rest).length true) := hrun.trans hphase1
  refine ⟨hmain, ?_⟩
  intro j hj
  have hstate : (seqRun seqAB (d :: rest)).1 = ⟨[], some ⟨1, 0⟩⟩ := by
    rw [hmain]
  rw [hstate]
  have := seq_phase2 ds2 0 j hj
  rw [this, zero_add]

/-- C6 witness: two calls of 0.5 finish child a and initialize b; the
following two calls of 0.5 return true then false (total reaches 2.0). -/
theorem c6_sequence_one_then_two_witness :
    (seqRun seqAB [1/2, 1/2]).2 = [true, true] ∧
    (seqRun seqAB [1/2, 1/2]).1 = ⟨[], some ⟨1, 0⟩⟩ ∧
    ((seqRun (seqRun seqAB [1/2, 1/2]).1 [1/2, 1/2]).2.getD 0 true) = true ∧
    ((seqRun (seqRun seqAB [1/2, 1/2]).1 [1/2, 1/2]).2.getD 1 true) = false := by
  have h := c6_sequence_one_then_two [1/2, 1/2] [1/2, 1/2] (by norm_num) (by norm_num)
  refine ⟨?_, ?_, ?_, ?_⟩
  · have := congrArg Prod.snd h.1
    simpa [List.replicate] using this
  · have := congrArg Prod.fst h.1
    simpa using this
  · have := h.2 0 (by norm_num)
    norm_num at this
    exact this
  · have := h.2 1 (by norm_num)
    norm_num at this
    exact this

/-- C7: for Repeat(action, count = 3) around a TemporalAction of duration
1.0 driven with fixed delta = 1/m (m at least 1, so the deltas divide the
duration evenly), update returns false exactly on call 3 * m — the call
completing the third cycle, after 3.0 time units — and true on every
earlier call; with count = 0, update returns true on every call. -/
theorem c7_repeat_three_and_zero (m : Nat) (hm : 1 ≤ m) :
    (∀ k < 3 * m, (repResult (1 / (m : Rat)) (repeat1 3) k = false ↔ k + 1 = 3 * m)) ∧
    (∀ k : Nat, repResult (1 / (m : Rat)) (repeat1 0) k = true) :=
  ⟨fun k hk => rep_result_count3 m hm k hk, fun k => rep_result_count0 m hm k⟩

/-- C7 witness: with m = 2 (delta = 1/2), call 6 is the first false for
count = 3, call 4 is still true, and count = 0 never returns false. -/
theorem c7_repeat_three_and_zero_witness :
    repResult (1 / ((2 : Nat) : Rat)) (repeat1 3) 5 = false ∧
    repResult (1 / ((2 : Nat) : Rat)) (repeat1 3) 3 = true ∧
    repResult (1 / ((2 : Nat) : Rat)) (repeat1 0) 9 = true := by
  have h := c7_repeat_three_and_zero 2 (by norm_num)
  refine ⟨?_, ?_, h.2 9⟩
  · exact (h.1 5 (by norm_num)).mpr (by norm_num)
  · cases hr : repResult (1 / ((2 : Nat) : Rat)) (repeat1 3) 3 with
    | false =>
      have := (h.1 3 (by norm_num)).mp hr
      norm_num at this
    | true => rfl

/-- C8: registering a child into an occupied grid cell evicts the previous
occupant from both children and children_grid and preserves the
one-child-per-cell invariant; concretely, children 1, 2, 3 at cells
(0,0), (1,0), (0,1) of a (100,100) parent give columns = rows = 2 with
every grid child rectangle sized 50 by 50, and registering child 4 at the
occupied cell (0,0) evicts child 1 from both structures. -/
theorem c8_grid_cell_eviction_and_sizes :
    (∀ (g : GridWidget) (child k column row : Nat),
      GridWidget.cellUnique g → g.children.Nodup → child ∉ g.children →
      (∀ e ∈ g.childrenGrid, e.1 ∈ g.children) →
      (k, column, row) ∈ g.childrenGrid →
      k ∉ (GridWidget.addChildToGrid g child column row).children ∧
      (∀ e ∈ (GridWidget.addChildToGrid g child column row).childrenGrid, e.1 ≠ k) ∧
      GridWidget.cellUnique (GridWidget.addChildToGrid g child column row)) ∧
    gridScenario.columns = 2 ∧ gridScenario.rows = 2 ∧
    gridScenario.childShapes =
      [(1, ⟨0, 0, 50, 50⟩), (2, ⟨50, 0, 50, 50⟩), (3, ⟨0, 50, 50, 50⟩)] ∧
    (GridWidget.addChildToGrid gridScenario 4 0 0).children = [2, 3, 4] ∧
    (GridWidget.addChildToGrid gridScenario 4 0 0).childrenGrid =
      [(2, 1, 0), (3, 0, 1), (4, 0, 0)] := by
  refine ⟨?_, ?_, ?_, ?_, ?_, ?_⟩
  · intro g child k column row hcell hnodup hchild hsub hk
    have h := addChildToGrid_evicts g child k column row hcell hnodup hchild hsub hk
    exact ⟨h.1, h.2.1, h.2.2.1⟩
  · rw [g3_eval]
  · rw [g3_eval]
  · rw [g3_eval]
  · rw [g4_eval]
  · rw [g4_eval]

/-- C8 witness: on a (100,100) parent holding child 5 at cell (0,0),
registering child 6 at (0,0) removes 5 from the children list. -/
theorem c8_grid_cell_eviction_and_sizes_witness :
    5 ∉ (GridWidget.addChildToGrid ⟨⟨0, 0, 100, 100⟩, [5], [(5, 0, 0)], 1, 1, []⟩
      6 0 0).children := by
  have h := (c8_grid_cell_eviction_and_sizes).1
    ⟨⟨0, 0, 100, 100⟩, [5], [(5, 0, 0)], 1, 1, []⟩ 6 5 0 0
    (by unfold GridWidget.cellUnique; decide) (by decide) (by decide)
    (by decide) (by decide)
  exact h.1

/-- C9: for every widget, color_abs equals the component-wise product of
the colors along the ancestor chain from the root down to and including
the widget itself; for a widget with no parent it is the widget's own
color. -/
theorem c9_color_abs_product :
    (∀ w : CWidget, CWidget.colorAbs w = prodColors (CWidget.chain w)) ∧
    (∀ c : List Rat, CWidget.colorAbs (.mk c none) = c) := by
  refine ⟨fun w => colorAbs_eq_prod_chain w, fun c => ?_⟩
  simp [CWidget.colorAbs]

/-- C10: Scene.render fails (with the VulkError the spec calls
ConfigurationError) exactly when some collected widget's renderer name is
missing from the renderer registry, and the reported name is the first
such widget in traversal order; when the tree has no descendants it
returns no semaphore and invokes no renderer. -/
theorem c10_render_error_iff (renderers : List Nat) (t : Tree) :
    ((sceneRender renderers t).isOk ↔ ∀ w ∈ Tree.collectLabels t, w ∈ renderers) ∧
    (∀ e, sceneRender renderers t = Except.error e →
      (Tree.collectLabels t).find? (fun w => decide (w ∉ renderers)) = some e) ∧
    (Tree.collectLabels t = [] → sceneRender renderers t = Except.ok (none, [])) :=
  renderLoop_spec renderers (Tree.collectLabels t) none []

/-- C10 witness: a childless scene renders to no semaphore with an empty
invocation log, and a scene whose only descendant asks for the unknown
renderer 5 has 5 as the first unresolvable name. -/
theorem c10_render_error_iff_witness :
    sceneRender [] (Tree.node 0 []) = Except.ok (none, []) ∧
    (Tree.collectLabels (Tree.node 0 [Tree.node 5 []])).find?
      (fun w => decide (w ∉ ([] : List Nat))) = some 5 := by
  constructor
  · exact (c10_render_error_iff [] (Tree.node 0 [])).2.2
      (by simp [Tree.collectLabels, Tree.collect, Tree.collectList])
  · refine (c10_render_error_iff [] (Tree.node 0 [Tree.node 5 []])).2.1 5 ?_
    simp [sceneRender, Tree.collectLabels, Tree.collect, Tree.collectList,
      Tree.label, renderLoop]

end Vulk
